import Mathlib

/-!
Verification of the Travel-Optimizer multi-segment flight price-fetch
scheduler.

The definitions below are a shallow embedding of the relevant parts of
`src/travel_optimizer/modules/flights/providers/flight_planner.py`,
`src/travel_optimizer/modules/flights/cleaning.py` and
`src/travel_optimizer/modules/flights/planner.py`.

Modelling conventions:
- Python strings are modelled as `List Char` where character-level
  operations matter (error-message normalization and truncation) and as
  `String` otherwise.
- Python `date` values are modelled as `Int` (an ordinal day number), so
  `timedelta(days = n)` addition is integer addition and `(a - b).days`
  is `a - b`.
- Python floats are modelled as `Rat`; none of the verified claims
  depends on binary floating-point rounding.
- Python dicts used as maps are modelled as association lists or as
  functions to `Option`.
-/

namespace TravelOpt

/-! ## String helpers: `clean_error` and `is_no_flights_error`
(flight_planner.py lines 632-641) -/

/-- Python `str.split()` with no argument: the maximal runs of
non-whitespace characters, in order.  `acc` is the current run, reversed. -/
def splitWsAux : List Char → List Char → List (List Char)
  | [], acc => if acc = [] then [] else [acc.reverse]
  | c :: rest, acc =>
    if c.isWhitespace then
      if acc = [] then splitWsAux rest [] else acc.reverse :: splitWsAux rest []
    else
      splitWsAux rest (c :: acc)

def splitWs (s : List Char) : List (List Char) := splitWsAux s []

/-- The whitespace normalization step of `clean_error`:
Python `" ".join(str(value).split())`. -/
def normalizeWs (s : List Char) : List Char := List.intercalate [' '] (splitWs s)

/-- `clean_error` (flight_planner.py:632-636): whitespace-normalize the
exception text; when the result is longer than 300 characters, keep the
first 300 characters and append an ellipsis. -/
def clean_error (s : List Char) : List Char :=
  let text := normalizeWs s
  if 300 < text.length then text.take 300 ++ ['.', '.', '.'] else text

/-- Does `needle` occur at the head of the second list? -/
def startsL : List Char → List Char → Bool
  | [], _ => true
  | _ :: _, [] => false
  | a :: as, b :: bs => a = b && startsL as bs

/-- Python `needle in hay` on strings: substring occurrence. -/
def containsSub (needle : List Char) : List Char → Bool
  | [] => startsL needle []
  | c :: rest => startsL needle (c :: rest) || containsSub needle rest

/-- `is_no_flights_error` (flight_planner.py:639-641):
`"No flights found" in str(value)`. -/
def is_no_flights_error (msg : List Char) : Bool :=
  containsSub (("No flights found").toList) msg

/-! ## Fetch results and the cache (flight_planner.py lines 744-811 and
881-1018, sequential branch) -/

/-- One flight record as stored in a fetch result
(flight_planner.py:974-987). -/
structure FlightRec where
  is_best : Bool
  name : String
  departure : String
  arrival : String
  arrival_time_ahead : String
  duration : String
  stops : Nat
  delay : String
  price : String
deriving DecidableEq

/-- The dedupe key of `dedupe_flights` (flight_planner.py:748-755). -/
def dedupeKey (f : FlightRec) : String × String × String × String × String × Nat :=
  (f.name, f.departure, f.arrival, f.duration, f.price, f.stops)

def dedupeAux (seen : List (String × String × String × String × String × Nat)) :
    List FlightRec → List FlightRec
  | [] => []
  | f :: rest =>
    if dedupeKey f ∈ seen then dedupeAux seen rest
    else f :: dedupeAux (dedupeKey f :: seen) rest

/-- `dedupe_flights` (flight_planner.py:744-760): drop any record whose
(name, departure, arrival, duration, price, stops) tuple was already seen. -/
def dedupe_flights (flights : List FlightRec) : List FlightRec := dedupeAux [] flights

/-- The result dict built by `fetch_segment`: a status string, the current
price label, the flight list, and an error message for empty/error results. -/
structure FetchData where
  status : String
  current_price : String := ""
  flights : List FlightRec := []
  error : Option (List Char) := none
deriving DecidableEq

/-- The `except` branch of `fetch_segment` (flight_planner.py:991-995):
status `empty` for a recognized no-flights failure, `error` otherwise,
with the cleaned exception text as the message. -/
def exception_result (msg : List Char) : FetchData :=
  { status := if is_no_flights_error msg then "empty" else "error"
  , error := some (clean_error msg)
  , flights := [] }

/-- The cache map, keyed by the fingerprint string of `make_cache_key`. -/
abbrev Cache := List (String × FetchData)

/-- Python dict lookup (keys are unique in the source dicts; the first
binding wins here). -/
def cacheGet : Cache → String → Option FetchData
  | [], _ => none
  | (k, v) :: rest, key => if k = key then some v else cacheGet rest key

/-- Python `dict.pop(key, None)`. -/
def cachePop (c : Cache) (key : String) : Cache := c.filter (fun kv => kv.1 ≠ key)

/-- Python `dict[key] = v`. -/
def cacheSet (c : Cache) (key : String) (v : FetchData) : Cache :=
  cachePop c key ++ [(key, v)]

/-- `load_cache` (flight_planner.py:794-803) after a successful JSON read:
keep only the entries whose status is `ok`.  (A missing or unreadable cache
file yields the empty map and is not modelled further.) -/
def load_cache (entries : Cache) : Cache :=
  entries.filter (fun kv => kv.2.status = "ok")

/-- The outcome of the external provider call inside `fetch_segment`:
either a result (current price label plus flight list) or an exception
carrying a message. -/
inductive ProviderCall where
  | ok (current_price : String) (flights : List FlightRec)
  | exc (msg : List Char)
deriving DecidableEq

structure FetchResponse where
  data : FetchData
  from_cache : Bool
deriving DecidableEq

/-- The fresh-fetch path of `fetch_segment` (flight_planner.py:945-1004,
sequential branch): build the result from the provider outcome, dedupe and
truncate the flight list, cache the result only when its status is `ok`,
and return a fresh copy tagged `from_cache = False`. -/
def fetchFresh (cache : Cache) (key : String) (call : ProviderCall)
    (max_flights : Nat) : FetchResponse × Cache :=
  let data : FetchData :=
    match call with
    | .ok cp fls =>
      let fls := dedupe_flights fls
      let fls := if max_flights ≠ 0 ∧ max_flights < fls.length then fls.take max_flights else fls
      { status := "ok", current_price := cp, flights := fls }
    | .exc msg => exception_result msg
  let cache := if data.status = "ok" then cacheSet cache key data else cache
  ({ data := data, from_cache := false }, cache)

/-- Sequential `fetch_segment` (flight_planner.py:881-1018 with no executor:
`cache_lock`, `inflight` and `inflight_lock` are all `None`), as a function
from the cache map to the response and the updated cache map.  The external
provider call, including a possible exception, is the `call` argument;
`key` is the fingerprint produced by `make_cache_key`. -/
def fetch_segment (cache : Cache) (key : String) (call : ProviderCall)
    (max_flights : Nat) : FetchResponse × Cache :=
  match cacheGet cache key with
  | some cached =>
    if cached.status = "ok" then ({ data := cached, from_cache := true }, cache)
    else fetchFresh (cachePop cache key) key call max_flights
  | none => fetchFresh cache key call max_flights

/-! ## Itinerary data model and trip-request planning
(flight_planner.py lines 22-59 and 311-425) -/

structure NodeSpec where
  group : String
  airports_override : Option (List String) := none
deriving DecidableEq

structure ItinerarySpec where
  nodes : List NodeSpec
  label : String
deriving DecidableEq

structure Schedule where
  itinerary : ItinerarySpec
  segment_dates : List Int
  stay_nights : List Int
deriving DecidableEq

structure Segment where
  index : Nat
  from_node : NodeSpec
  to_node : NodeSpec
  depart_date : Int
  stay_nights : Option Int
deriving DecidableEq

structure TripRequest where
  trip_type : String
  from_node : NodeSpec
  to_node : NodeSpec
  depart_date : Int
  return_date : Option Int
  stay_nights : Option Int
  segment_index : Nat
  segment_span : Nat
deriving DecidableEq

/-- `itinerary.nodes[i]` (index accesses in `build_trip_requests` are always
in bounds in the source; out-of-range reads fall back to a dummy node). -/
def nodeAt (itin : ItinerarySpec) (i : Nat) : NodeSpec :=
  (itin.nodes.get? i).getD { group := "" }

/-- The segment list built at the top of `build_trip_requests`
(flight_planner.py:316-329): one raw leg per schedule date. -/
def build_segments (itin : ItinerarySpec) (sched : Schedule) : List Segment :=
  sched.segment_dates.enum.map (fun p =>
    { index := p.1
    , from_node := nodeAt itin p.1
    , to_node := nodeAt itin (p.1 + 1)
    , depart_date := p.2
    , stay_nights := sched.stay_nights.get? p.1 })

/-- One-way request for a single segment (flight_planner.py:332-344 and
410-422). -/
def one_way_request (seg : Segment) : TripRequest :=
  { trip_type := "one-way"
  , from_node := seg.from_node
  , to_node := seg.to_node
  , depart_date := seg.depart_date
  , return_date := none
  , stay_nights := seg.stay_nights
  , segment_index := seg.index
  , segment_span := 1 }

/-- The `round-trip-when-possible` scan of `build_trip_requests`
(flight_planner.py:346-384): merge a segment with its successor when the
itinerary returns directly to the segment's origin, else emit one-way. -/
def rtwp_loop (itin : ItinerarySpec) : List Segment → List TripRequest
  | [] => []
  | [seg] => [one_way_request seg]
  | seg :: next :: rest =>
    if (itin.nodes.get? (seg.index + 2)).isSome ∧
        itin.nodes.get? (seg.index + 2) = some seg.from_node then
      { trip_type := "round-trip"
      , from_node := seg.from_node
      , to_node := seg.to_node
      , depart_date := seg.depart_date
      , return_date := some next.depart_date
      , stay_nights := some (next.depart_date - seg.depart_date)
      , segment_index := seg.index
      , segment_span := 2 } :: rtwp_loop itin rest
    else
      one_way_request seg :: rtwp_loop itin (next :: rest)

/-- The chasles-nested scan of `build_trip_requests`
(flight_planner.py:386-408): LIFO pairing of exactly-reversed segments.
The stack is kept top-first; returns the emitted round trips in emission
order together with the final stack. -/
def chasles_loop : List Segment → List Segment → List TripRequest × List Segment
  | [], stack => ([], stack)
  | seg :: rest, stack =>
    match stack with
    | top :: stackRest =>
      if top.from_node = seg.to_node ∧ top.to_node = seg.from_node then
        let req : TripRequest :=
          { trip_type := "round-trip"
          , from_node := top.from_node
          , to_node := top.to_node
          , depart_date := top.depart_date
          , return_date := some seg.depart_date
          , stay_nights := some (seg.depart_date - top.depart_date)
          , segment_index := top.index
          , segment_span := seg.index - top.index + 1 }
        let rec_result := chasles_loop rest stackRest
        (req :: rec_result.1, rec_result.2)
      else
        chasles_loop rest (seg :: top :: stackRest)
    | [] => chasles_loop rest [seg]

/-- The chasles-nested request list before the final sort
(flight_planner.py:386-422): the round trips emitted during the scan, then
one-way requests for the segments left on the stack in insertion
(bottom-to-top) order. -/
def chasles_requests (segments : List Segment) : List TripRequest :=
  let scanned := chasles_loop segments []
  scanned.1 ++ scanned.2.reverse.map one_way_request

/-- The final sort key of the chasles branch (flight_planner.py:424):
Python `sort(key = (depart_date, segment_index))`, a stable ascending sort. -/
def reqKeyLe (a b : TripRequest) : Bool :=
  decide (a.depart_date < b.depart_date) ||
    (decide (a.depart_date = b.depart_date) && decide (a.segment_index ≤ b.segment_index))

def reqLe (a b : TripRequest) : Prop := reqKeyLe a b = true

instance reqLeDec : DecidableRel reqLe := fun a b => by
  unfold reqLe
  infer_instance

/-- `build_trip_requests` (flight_planner.py:311-425).  Python `list.sort`
is a stable sort; it is modelled by the stable `insertionSort`. -/
def build_trip_requests (itin : ItinerarySpec) (sched : Schedule)
    (trip_strategy : String) : List TripRequest :=
  let segments := build_segments itin sched
  if trip_strategy = "segment" then segments.map one_way_request
  else if trip_strategy = "round-trip-when-possible" then rtwp_loop itin segments
  else List.insertionSort reqLe (chasles_requests segments)

/-! ## Schedule generation (flight_planner.py lines 461-601) -/

structure StayNightsCfg where
  nights : Option Int := none
  min : Option Int := none
  max : Option Int := none
  step : Option Int := none
deriving DecidableEq

/-- Python `range(lo, hi, step)` for integers, as a list (empty for a
non-positive step; the source raises before that can happen). -/
def pyRange (lo hi step : Int) : List Int :=
  if 0 < step then
    (List.range ((hi - lo + step - 1) / step).toNat).map (fun i => lo + step * i)
  else []

/-- `expand_stay_nights` (flight_planner.py:544-554). -/
def expand_stay_nights (cfg : StayNightsCfg) : Except String (List Int) :=
  match cfg.nights with
  | some n => .ok [n]
  | none =>
    let min_raw := cfg.min.getD 0
    let max_raw := cfg.max.getD min_raw
    let min_n := if max_raw < min_raw then max_raw else min_raw
    let max_n := if max_raw < min_raw then min_raw else max_raw
    let step := cfg.step.getD 1
    if step ≤ 0 then .error ("stay_nights step must be positive")
    else .ok (pyRange min_n (max_n + 1) step)

/-- The return-date filter built by `build_return_filter`
(flight_planner.py:461-483): either an explicit date set or an inclusive
range. -/
inductive ReturnFilter where
  | set (dates : List Int)
  | range (start stop : Int)
deriving DecidableEq

/-- `date_in_filter` (flight_planner.py:486-491). -/
def date_in_filter (d : Int) : Option ReturnFilter → Bool
  | none => true
  | some (.set dates) => decide (d ∈ dates)
  | some (.range s e) => decide (s ≤ d) && decide (d ≤ e)

/-- The constraint fields read by `iter_schedule_combos`
(flight_planner.py:564-567). -/
structure ComboConstraints where
  max_combinations_per_itinerary : Nat := 0
  trip_nights_min : Option Int := none
  trip_nights_max : Option Int := none
deriving DecidableEq

/-- `itertools.product` over a list of option lists; the rightmost factor
varies fastest, and the empty product is the single empty tuple. -/
def listProd : List (List Int) → List (List Int)
  | [] => [[]]
  | l :: ls => l.flatMap (fun x => (listProd ls).map (fun xs => x :: xs))

/-- The cumulative segment dates of one combination
(flight_planner.py:581-585): the start date, then one date per stay by
adding the stay-night deltas. -/
def cumDates (start : Int) : List Int → List Int
  | [] => [start]
  | n :: rest => start :: cumDates (start + n) rest

def belowMin (tn : Int) : Option Int → Bool
  | some m => decide (tn < m)
  | none => false

def aboveMax (tn : Int) : Option Int → Bool
  | some m => decide (m < tn)
  | none => false

structure ComboState where
  count : Nat := 0
  stopped : Bool := false
  acc : List Schedule := []
deriving DecidableEq

/-- The body of the generation loop of `iter_schedule_combos`
(flight_planner.py:578-601) for one (departure date, stay tuple) pair;
`stopped` models the generator `return` once the combination cap is hit. -/
def combo_step (itin : ItinerarySpec) (returnFilter : Option ReturnFilter)
    (cons : ComboConstraints) (st : ComboState) (p : Int × List Int) : ComboState :=
  if st.stopped then st
  else
    let segment_dates := cumDates p.1 p.2
    let end_date := segment_dates.getLastD p.1
    if date_in_filter end_date returnFilter = false then st
    else
      let trip_nights := end_date - p.1
      if belowMin trip_nights cons.trip_nights_min then st
      else if aboveMax trip_nights cons.trip_nights_max then st
      else
        let st1 : ComboState :=
          { count := st.count + 1
          , stopped := st.stopped
          , acc := st.acc ++ [{ itinerary := itin, segment_dates := segment_dates, stay_nights := p.2 }] }
        if cons.max_combinations_per_itinerary ≠ 0 ∧
            cons.max_combinations_per_itinerary ≤ st1.count then
          { st1 with stopped := true }
        else st1

/-- `iter_schedule_combos` (flight_planner.py:557-601) as the list of
yielded schedules (or the configuration error raised before generation). -/
def iter_schedule_combos (itin : ItinerarySpec) (departure_dates : List Int)
    (stay_nights_map : String → Option StayNightsCfg)
    (returnFilter : Option ReturnFilter) (cons : ComboConstraints) :
    Except String (List Schedule) := do
  let stop_groups := ((itin.nodes.drop 1).dropLast).map (fun n => n.group)
  let stay_lists ← stop_groups.mapM (fun g =>
    match stay_nights_map g with
    | none => .error ("Missing stay_nights for group " ++ g)
    | some cfg => expand_stay_nights cfg)
  let pairs := departure_dates.flatMap (fun d => (listProd stay_lists).map (fun stays => (d, stays)))
  pure (pairs.foldl (combo_step itin returnFilter cons) {}).acc

/-! ## Summary aggregation, scoring and the summary sort
(flight_planner.py lines 1581-1713; cleaning.py lines 376-510) -/

/-- One entry of `summary_best`: the lowest-priced candidate seen for one
(itinerary, query) pair (flight_planner.py:1448-1470). -/
structure BestEntry where
  price_value : Rat
  duration_min : Option Int
  stops : Option Int
  night : Nat
  from_airport : String
  to_airport : String
  airline : String
deriving DecidableEq

/-- The fields of a `summary_meta` entry used by the totals loop
(flight_planner.py:1313-1321). -/
structure SummaryMeta where
  route : String
  trip_nights : Int
  segments : Nat
  queries : Nat
deriving DecidableEq

/-- One summary row restricted to the fields the claims are about; the
echoed metadata columns and the pipe-joined per-leg string columns are
independent of the totals and are omitted. -/
structure SummaryRow where
  itinerary_id : String
  priced_segments : Nat
  min_total_price : Option Rat
  total_duration_min : Option Int
  total_stops : Option Int
  night_segments : Option Nat
  score : Option Rat
deriving DecidableEq

/-- Accumulator of the per-query totals loop (flight_planner.py:1598-1634). -/
structure RowAcc where
  priced : Nat := 0
  total_price : Rat := 0
  total_duration : Int := 0
  total_stops : Int := 0
  nights : Nat := 0
  duration_ok : Bool := true
  stops_ok : Bool := true
deriving DecidableEq

def rowAccStep (best : Nat → Option BestEntry) (acc : RowAcc) (q : Nat) : RowAcc :=
  match best q with
  | none => acc
  | some e =>
    { priced := acc.priced + 1
    , total_price := acc.total_price + e.price_value
    , total_duration :=
        match e.duration_min with
        | none => acc.total_duration
        | some d => acc.total_duration + d
    , total_stops :=
        match e.stops with
        | none => acc.total_stops
        | some v => acc.total_stops + v
    , nights := acc.nights + e.night
    , duration_ok := acc.duration_ok && e.duration_min.isSome
    , stops_ok := acc.stops_ok && e.stops.isSome }

/-- The per-itinerary totals of the in-run summary
(flight_planner.py:1596-1655): all totals are set only when
`priced_segments == queries`, else they are `None`; the score starts
`None`. -/
def build_summary_row (itinerary_id : String) (meta : SummaryMeta)
    (best : Nat → Option BestEntry) : SummaryRow :=
  let acc := (List.range meta.queries).foldl (rowAccStep best) {}
  { itinerary_id := itinerary_id
  , priced_segments := acc.priced
  , min_total_price := if acc.priced = meta.queries then some acc.total_price else none
  , total_duration_min :=
      if acc.duration_ok = true ∧ acc.priced = meta.queries then some acc.total_duration else none
  , total_stops :=
      if acc.stops_ok = true ∧ acc.priced = meta.queries then some acc.total_stops else none
  , night_segments := if acc.priced = meta.queries then some acc.nights else none
  , score := none }

/-- The per-itinerary totals of the rebuilt clean summary
(cleaning.py:379-449): identical to the in-run version except that the
query count is recovered as `max_query_index + 1` and every total also
requires `queries > 0`. -/
def build_summary_row_clean (itinerary_id : String) (max_query_index : Option Nat)
    (best : Nat → Option BestEntry) : SummaryRow :=
  let queries := match max_query_index with | some m => m + 1 | none => 0
  let acc := (List.range queries).foldl (rowAccStep best) {}
  { itinerary_id := itinerary_id
  , priced_segments := acc.priced
  , min_total_price :=
      if acc.priced = queries ∧ 0 < queries then some acc.total_price else none
  , total_duration_min :=
      if acc.duration_ok = true ∧ acc.priced = queries ∧ 0 < queries then some acc.total_duration else none
  , total_stops :=
      if acc.stops_ok = true ∧ acc.priced = queries ∧ 0 < queries then some acc.total_stops else none
  , night_segments := if acc.priced = queries ∧ 0 < queries then some acc.nights else none
  , score := none }

/-- `valid_metric` on all four total columns: the eligibility test for the
scoring set (flight_planner.py:1658-1668, cleaning.py:451-458). -/
def eligibleRow (r : SummaryRow) : Bool :=
  r.min_total_price.isSome && r.total_duration_min.isSome &&
    r.total_stops.isSome && r.night_segments.isSome

structure Weights where
  price : Rat
  duration : Rat
  stops : Rat
  night : Rat
deriving DecidableEq

/-- Python `min` over a non-empty list (the source only calls it on the
non-empty eligible set). -/
def pyMin : List Rat → Rat
  | [] => 0
  | x :: xs => xs.foldl min x

def pyMax : List Rat → Rat
  | [] => 0
  | x :: xs => xs.foldl max x

/-- `normalize` (flight_planner.py:1683-1686, cleaning.py:470-473). -/
def normalizeVal (v mn mx : Rat) : Rat := if mx ≤ mn then 0 else (v - mn) / (mx - mn)

/-- Python `round(x, 2)` modelled on rationals: round half to even at two
decimal places. -/
def roundHalfEven (q : Rat) : Int :=
  let f := q.floor
  let frac := q - f
  if frac < 1 / 2 then f
  else if 1 / 2 < frac then f + 1
  else if f % 2 = 0 then f else f + 1

def round2 (q : Rat) : Rat := ((roundHalfEven (q * 100) : Int) : Rat) / 100

/-- The min-max statistics over the eligible rows
(flight_planner.py:1670-1681). -/
structure EligStats where
  pmin : Rat
  pmax : Rat
  dmin : Rat
  dmax : Rat
  smin : Rat
  smax : Rat
  nmin : Rat
  nmax : Rat
deriving DecidableEq

def eligStats (elig : List SummaryRow) : EligStats :=
  { pmin := pyMin (elig.map (fun r => r.min_total_price.getD 0))
  , pmax := pyMax (elig.map (fun r => r.min_total_price.getD 0))
  , dmin := pyMin (elig.map (fun r => ((r.total_duration_min.getD 0 : Int) : Rat)))
  , dmax := pyMax (elig.map (fun r => ((r.total_duration_min.getD 0 : Int) : Rat)))
  , smin := pyMin (elig.map (fun r => ((r.total_stops.getD 0 : Int) : Rat)))
  , smax := pyMax (elig.map (fun r => ((r.total_stops.getD 0 : Int) : Rat)))
  , nmin := pyMin (elig.map (fun r => ((r.night_segments.getD 0 : Nat) : Rat)))
  , nmax := pyMax (elig.map (fun r => ((r.night_segments.getD 0 : Nat) : Rat))) }

/-- One row's score (flight_planner.py:1688-1699, cleaning.py:475-486). -/
def rowScore (w : Weights) (st : EligStats) (r : SummaryRow) : Rat :=
  let pn := normalizeVal (r.min_total_price.getD 0) st.pmin st.pmax
  let dn := normalizeVal ((r.total_duration_min.getD 0 : Int) : Rat) st.dmin st.dmax
  let sn := normalizeVal ((r.total_stops.getD 0 : Int) : Rat) st.smin st.smax
  let nn := normalizeVal ((r.night_segments.getD 0 : Nat) : Rat) st.nmin st.nmax
  let score := 1 - (w.price * pn + w.duration * dn + w.stops * sn + w.night * nn)
  round2 (max 0 (min 1 score) * 100)

/-- The scoring pass (flight_planner.py:1658-1699): statistics are taken
over the eligible rows and each eligible row receives a score; ineligible
rows keep `score = None`.  The source mutates the shared row dicts through
the `eligible` list; eligibility is intrinsic to a row, so this equals
mapping over all rows. -/
def apply_scores (w : Weights) (rows : List SummaryRow) : List SummaryRow :=
  let elig := rows.filter (fun r => eligibleRow r)
  if elig.isEmpty then rows
  else
    let st := eligStats elig
    rows.map (fun r => if eligibleRow r then { r with score := some (rowScore w st r) } else r)

/-- The full in-run summary pipeline (flight_planner.py:1596-1699): one row
per `summary_meta` entry, then the scoring pass.  `best` is the
`summary_best` map keyed by (itinerary id, query index). -/
def build_summary_rows (metas : List (String × SummaryMeta))
    (best : String → Nat → Option BestEntry) (w : Weights) : List SummaryRow :=
  apply_scores w (metas.map (fun m => build_summary_row m.1 m.2 (best m.1)))

/-- `score_key` (flight_planner.py:1701-1705, cleaning.py:140-144). -/
def score_key (r : SummaryRow) : Int × Rat :=
  match r.score with
  | none => (1, 0)
  | some s => (0, s)

/-- Python tuple comparison `a <= b` on an (Int, Rat) pair. -/
def tupleLe (a b : Int × Rat) : Bool :=
  decide (a.1 < b.1) || (decide (a.1 = b.1) && decide (a.2 ≤ b.2))

/-- The ordering realized by `reverse = True`: row `a` may come before
row `b` when `score_key b <= score_key a` under Python tuple comparison. -/
def summaryLe (a b : SummaryRow) : Prop := tupleLe (score_key b) (score_key a) = true

instance summaryLeDec : DecidableRel summaryLe := fun a b => by
  unfold summaryLe
  infer_instance

/-- `summary_rows.sort(key = score_key, reverse = True)`
(flight_planner.py:1707, cleaning.py:488): a stable descending sort by
`score_key`.  Python `list.sort` is a stable sort; it is modelled by the
stable `insertionSort`. -/
def sort_summary (rows : List SummaryRow) : List SummaryRow :=
  List.insertionSort summaryLe rows

/-! ## The clean-flights row filter (cleaning.py lines 322-341) -/

/-- One raw CSV data row restricted to the fields the filter reads.
`price_value` is the outcome of `parse_float(row["price_value"])` and
`duration_min` the outcome of `parse_duration_minutes(row["duration"])`;
those two parsers wrap Python `float()` and regular-expression matching and
are abstracted as the already-parsed optional fields. -/
structure RawRow where
  itinerary_id : String
  price_value : Option Rat
  duration_min : Option Int
deriving DecidableEq

/-- `valid_price` (cleaning.py:324): parses and is strictly positive. -/
def valid_price (r : RawRow) : Bool :=
  match r.price_value with
  | some p => decide (0 < p)
  | none => false

/-- `valid_duration` (cleaning.py:325): parses and is strictly positive. -/
def valid_duration (r : RawRow) : Bool :=
  match r.duration_min with
  | some d => decide (0 < d)
  | none => false

/-- The `reject_reason` string (cleaning.py:330-336): the failing checks
joined with a pipe. -/
def reject_reason (r : RawRow) : String :=
  String.intercalate ("|")
    ((if valid_price r then [] else [("invalid_price")]) ++
      (if valid_duration r then [] else [("invalid_duration")]))

structure CleanState where
  kept : List RawRow := []
  rejected : List (RawRow × String) := []
  kept_count : Nat := 0
  rejected_count : Nat := 0
deriving DecidableEq

/-- The per-row body of the filter loop of `clean_flights`
(cleaning.py:322-341): a row is kept exactly when both checks pass, else it
is counted rejected and recorded with its reject reason. -/
def clean_step (st : CleanState) (r : RawRow) : CleanState :=
  if valid_price r && valid_duration r then
    { st with kept := st.kept ++ [r], kept_count := st.kept_count + 1 }
  else
    { st with
      rejected := st.rejected ++ [(r, reject_reason r)]
    , rejected_count := st.rejected_count + 1 }

/-- The filter loop of `clean_flights` over all data rows. -/
def clean_rows (rows : List RawRow) : CleanState := rows.foldl clean_step {}

/-! ## The fallback orchestration (planner.py lines 233-297) -/

/-- One clean-summary row restricted to its priced total. -/
structure CleanSummaryRow where
  min_total_price : Option Rat
deriving DecidableEq

/-- The environment one suggestion is processed in: whether the planner
subprocess succeeds for a fetch mode, and the clean-summary rows its run
leaves behind. -/
structure SweepEnv where
  plannerOk : String → Bool
  rowsOf : String → List CleanSummaryRow

/-- One iteration of the suggestion loop of `_run_google_flights`
(planner.py:246-296): run the planner under the primary fetch mode and read
the rebuilt clean summary; when that summary has no rows at all and a
distinct fallback mode is configured, rerun once under the fallback mode.
Returns the fetch modes actually run and the rows finally used.  (A failed
planner run is skipped with `continue` and triggers no fallback.) -/
def run_sweep (env : SweepEnv) (fetch_mode : String) (fallback_mode : Option String) :
    List String × List CleanSummaryRow :=
  if env.plannerOk fetch_mode = false then ([fetch_mode], [])
  else
    let rows := env.rowsOf fetch_mode
    match fallback_mode with
    | some fb =>
      if rows = [] ∧ fb ≠ fetch_mode then
        if env.plannerOk fb = false then ([fetch_mode, fb], [])
        else ([fetch_mode, fb], env.rowsOf fb)
      else ([fetch_mode], rows)
    | none => ([fetch_mode], rows)

/-- The number of priced rows of a clean summary (rows whose
`min_total_price` is not null). -/
def pricedRowCount (rows : List CleanSummaryRow) : Nat :=
  (rows.filter (fun r => r.min_total_price.isSome)).length

/-! ## The max_calls dispatch budget (flight_planner.py lines 1285-1370) -/

abbrev AirportPair := String × String

structure DispatchState where
  calls_submitted : Int := 0
  stop_early : Bool := false
  submitted : List (List AirportPair) := []
deriving DecidableEq

/-- The per-query budget bookkeeping of `run` (flight_planner.py:1337-1370):
on a positive budget, a query either trips `stop_early` when the budget is
exhausted or submits its pair list truncated to the remaining budget. -/
def query_step (max_calls : Int) (st : DispatchState) (pairs : List AirportPair) :
    DispatchState :=
  if st.stop_early then st
  else if max_calls ≠ 0 then
    let remaining := max_calls - st.calls_submitted
    if remaining ≤ 0 then { st with stop_early := true }
    else
      let pairs := if remaining < (pairs.length : Int) then pairs.take remaining.toNat else pairs
      { st with
        calls_submitted := st.calls_submitted + pairs.length
      , submitted := st.submitted ++ [pairs] }
  else
    { st with
      calls_submitted := st.calls_submitted + pairs.length
    , submitted := st.submitted ++ [pairs] }

/-- One schedule's query loop (flight_planner.py:1297-1339): skipped
entirely once `stop_early` is set. -/
def schedule_step (max_calls : Int) (st : DispatchState)
    (queries : List (List AirportPair)) : DispatchState :=
  if st.stop_early then st
  else queries.foldl (query_step max_calls) st

/-- The dispatch skeleton of `run` (flight_planner.py:1285-1370) restricted
to the max_calls bookkeeping: the schedule loop over the queries of each
schedule.  (The `max_itineraries` early exit only stops the iteration
sooner and is omitted.) -/
def run_dispatch (max_calls : Int) (schedules : List (List (List AirportPair))) :
    DispatchState :=
  schedules.foldl (schedule_step max_calls) {}

/-- The total number of fetch tasks recorded as submitted. -/
def totalSubmitted (st : DispatchState) : Int :=
  (st.submitted.map (fun l => (l.length : Int))).sum

/-! ## The concurrent fetch path of `fetch_segment`
(flight_planner.py lines 881-1018 with executor, cache lock, in-flight
registry and in-flight lock present)

The protocol is modelled as an interleaved execution of `N` threads that
all call `fetch_segment` for the same cache key.  Each thread runs the same
program, split into atomic steps at the lock boundaries of the source:

- `cacheCheck`: lines 912-920 under `cache_lock`;
- `inflightCheck`: lines 931-937 under `inflight_lock` (register as owner
  when no entry exists, else remember the entry and wait);
- `callProvider`: the external `get_flights` call (lines 947-969); the
  provider is deterministic in the model and always returns `pd`;
- `insertCache`: lines 996-999 under `cache_lock` (only `ok` results);
- `signalWaiters`: lines 1007-1015 of the `finally` block; the source sets
  `inflight_entry.response` before `event.set()` and waiters read the
  response only after the event fires, so the two writes are one atomic
  step here;
- `popInflight`: lines 1016-1018 under `inflight_lock`, then the
  `return fresh` of line 1004 takes effect;
- `waitOwner`: line 939's `event.wait()` and lines 940-944 (a waiter whose
  entry has a `None` response falls through to the provider call without
  owning the entry, exactly as the source would).
-/

namespace Inflight

structure Entry where
  event : Bool
  response : Option FetchData
deriving DecidableEq

inductive PC where
  | cacheCheck
  | inflightCheck
  | callProvider
  | insertCache
  | signalWaiters
  | popInflight
  | waitOwner
  | finished
deriving DecidableEq

/-- The value a `fetch_segment` call returns: the result data together with
the `from_cache` and `cache_source` tags added on the way out. -/
structure TaggedResult where
  data : FetchData
  from_cache : Bool
  cache_source : Option String
deriving DecidableEq

structure Thread where
  pc : PC
  entry : Option Nat
  owner : Bool
  missedCache : Bool
  result : Option TaggedResult
deriving DecidableEq

def initThread : Thread :=
  { pc := .cacheCheck, entry := none, owner := false, missedCache := false, result := none }

def emptyEntry : Entry := { event := false, response := none }

/-- The shared state: the cache binding for the one key, the in-flight
registry binding for the one key, an arena of in-flight entry objects, the
thread pool, and the number of external provider calls issued. -/
structure Sys where
  cache : Option FetchData
  inflightKey : Option Nat
  entries : Nat → Entry
  nentries : Nat
  threads : Nat → Thread
  nthreads : Nat
  extCalls : Nat

def initSys (n : Nat) : Sys :=
  { cache := none, inflightKey := none, entries := fun _ => emptyEntry, nentries := 0
  , threads := fun _ => initThread, nthreads := n, extCalls := 0 }

def setThread (s : Sys) (t : Nat) (th : Thread) : Sys :=
  { s with threads := Function.update s.threads t th }

def finishThread (s : Sys) (t : Nat) (th : Thread) (r : TaggedResult) : Sys :=
  setThread s t { th with pc := .finished, result := some r }

/-- One atomic step of thread `t`.  The provider outcome is the fixed
parameter `pd` (the model covers one deterministic provider response). -/
def step (pd : FetchData) (s : Sys) (t : Nat) : Sys :=
  if t < s.nthreads then
    let th := s.threads t
    match th.pc with
    | .cacheCheck =>
      match s.cache with
      | some cached =>
        if cached.status = "ok" then
          finishThread s t th { data := cached, from_cache := true, cache_source := none }
        else
          { setThread s t { th with pc := .inflightCheck, missedCache := true } with
            cache := none }
      | none => setThread s t { th with pc := .inflightCheck, missedCache := true }
    | .inflightCheck =>
      match s.inflightKey with
      | none =>
        let eid := s.nentries
        { setThread s t { th with pc := .callProvider, entry := some eid, owner := true } with
          entries := Function.update s.entries eid emptyEntry
        , nentries := s.nentries + 1
        , inflightKey := some eid }
      | some eid => setThread s t { th with pc := .waitOwner, entry := some eid }
    | .callProvider =>
      { setThread s t { th with pc := .insertCache } with extCalls := s.extCalls + 1 }
    | .insertCache =>
      if pd.status = "ok" then
        { setThread s t { th with pc := .signalWaiters } with cache := some pd }
      else setThread s t { th with pc := .signalWaiters }
    | .signalWaiters =>
      match th.owner, th.entry with
      | true, some eid =>
        { setThread s t { th with pc := .popInflight } with
          entries := Function.update s.entries eid { event := true, response := some pd } }
      | _, _ => setThread s t { th with pc := .popInflight }
    | .popInflight =>
      let s1 := if th.owner then { s with inflightKey := none } else s
      finishThread s1 t th { data := pd, from_cache := false, cache_source := none }
    | .waitOwner =>
      match th.entry with
      | some eid =>
        let e := s.entries eid
        if e.event then
          match e.response with
          | some d =>
            finishThread s t th { data := d, from_cache := true, cache_source := some ("inflight") }
          | none => setThread s t { th with pc := .callProvider }
        else s
      | none => s
    | .finished => s
  else s

/-- Run a schedule of thread steps. -/
def run (pd : FetchData) (s : Sys) : List Nat → Sys
  | [] => s
  | t :: rest => run pd (step pd s t) rest

/-- The value the owner's call returns (line 1002-1004). -/
def ownerResult (pd : FetchData) : TaggedResult :=
  { data := pd, from_cache := false, cache_source := none }

/-- The value a coalesced waiter returns (lines 940-944). -/
def waiterResult (pd : FetchData) : TaggedResult :=
  { data := pd, from_cache := true, cache_source := some ("inflight") }

def ownerPC (pc : PC) : Prop :=
  pc = .callProvider ∨ pc = .insertCache ∨ pc = .signalWaiters ∨
    pc = .popInflight ∨ pc = .finished

instance ownerPCDec (pc : PC) : Decidable (ownerPC pc) := by
  unfold ownerPC
  infer_instance

/-- The coalesced configuration: thread `o` has registered as the in-flight
owner of entry `eid`, and every other thread has already performed its
in-flight lookup and waits on (or has finished from) that same entry. -/
structure Coalesced (pd : FetchData) (s : Sys) (o eid : Nat) : Prop where
  ho : o < s.nthreads
  howner : (s.threads o).owner = true
  hentry : (s.threads o).entry = some eid
  hpc : ownerPC (s.threads o).pc
  hcalls : s.extCalls = (if (s.threads o).pc = .callProvider then 0 else 1)
  hentryState : s.entries eid =
    (if (s.threads o).pc = .popInflight ∨ (s.threads o).pc = .finished
     then { event := true, response := some pd } else emptyEntry)
  hkey : s.inflightKey = (if (s.threads o).pc = .finished then none else some eid)
  hres : (s.threads o).result =
    (if (s.threads o).pc = .finished then some (ownerResult pd) else none)
  hothers : ∀ t, t < s.nthreads → t ≠ o →
    (s.threads t).owner = false ∧ (s.threads t).entry = some eid ∧
      (((s.threads t).pc = .waitOwner ∧ (s.threads t).result = none) ∨
        ((s.threads t).pc = .finished ∧ (s.threads t).result = some (waiterResult pd)))

end Inflight

/-! ## Concrete instances used by counterexamples and witnesses -/

/-- A provider result with status `ok`. -/
def okPd : FetchData := { status := "ok" }

/-- A coalesced three-thread state: thread 0 has registered as owner,
threads 1 and 2 wait on its entry. -/
def coalescedMid : Inflight.Sys := Inflight.run okPd (Inflight.initSys 3) [0, 0, 1, 1, 2, 2]

def rowA : SummaryRow :=
  { itinerary_id := "A", priced_segments := 1, min_total_price := some 100
  , total_duration_min := some 60, total_stops := some 0, night_segments := some 0
  , score := some 50 }

def rowB : SummaryRow := { rowA with itinerary_id := "B", min_total_price := some 10 }

def rowC : SummaryRow := { rowA with itinerary_id := "C", score := none }

def itin7 : ItinerarySpec :=
  { nodes := [{ group := "A" }, { group := "B" }, { group := "C" }], label := "" }

def stayMap7 : String → Option StayNightsCfg := fun g =>
  if g = "B" then some { min := some 3, max := some 5, step := some 1 } else none

/-- An environment whose primary sweep leaves one unpriced summary row. -/
def env0 : SweepEnv :=
  { plannerOk := fun _ => true
  , rowsOf := fun m => if m = "common" then [{ min_total_price := none }] else [] }

/-! # Theorems -/

/-! ## C5: error classification and message truncation -/

set_option maxRecDepth 8000 in
/-- C5 counterexample: on a 301-character exception message (which is
already whitespace-normalized), the recorded error message is not the
normalized text truncated to 300 characters — the source appends an
ellipsis after the cut, so the recorded message has 303 characters. -/
theorem C5_counterexample :
    (exception_result (List.replicate 301 'a')).error ≠
      some ((normalizeWs (List.replicate 301 'a')).take 300) ∧
    normalizeWs (List.replicate 301 'a') = List.replicate 301 'a' ∧
    (clean_error (List.replicate 301 'a')).length = 303 := by
  decide

/-- C5 (amended): an exception inside `fetch_segment` yields status `empty`
exactly when its message contains `No flights found` and status `error`
otherwise; the recorded message agrees with the whitespace-normalized text
on the first 300 characters, never exceeds 303 characters, and equals the
normalized text whenever that text is at most 300 characters long (the
ellipsis is appended only when truncation happened). -/
theorem C5_error_classification (msg : List Char) :
    ((exception_result msg).status = "empty" ↔ is_no_flights_error msg = true) ∧
    ((exception_result msg).status = "error" ↔ is_no_flights_error msg = false) ∧
    ∃ e, (exception_result msg).error = some e ∧
      e.take 300 = (normalizeWs msg).take 300 ∧
      e.length ≤ 303 ∧
      ((normalizeWs msg).length ≤ 300 → e = normalizeWs msg) := by
  refine ⟨?_, ?_, clean_error msg, rfl, ?_, ?_, ?_⟩
  · cases h : is_no_flights_error msg <;> simp [exception_result, h]
  · cases h : is_no_flights_error msg <;> simp [exception_result, h]
  · simp only [clean_error]
    split
    · next hlen =>
      have h300 : ((normalizeWs msg).take 300).length = 300 := by
        simp only [List.length_take]
        omega
      rw [List.take_left' h300]
    · rfl
  · simp only [clean_error]
    split
    · next hlen =>
      have h300 : ((normalizeWs msg).take 300).length = 300 := by
        simp only [List.length_take]
        omega
      simp [h300]
    · next hlen =>
      omega
  · intro hle
    simp only [clean_error]
    split
    · next hlen => omega
    · rfl

/-- C5 witness: a message containing the needle is classified `empty`. -/
theorem C5_error_classification_witness :
    (exception_result (("No flights found").toList)).status = "empty" :=
  (C5_error_classification (("No flights found").toList)).1.mpr (by decide)

/-! ## C2: only `ok` entries ever live in the cache -/

theorem fetchFresh_cache_all_ok (cache : Cache) (key : String) (call : ProviderCall)
    (mf : Nat) (h : ∀ kv ∈ cache, kv.2.status = "ok") :
    ∀ kv ∈ (fetchFresh cache key call mf).2, kv.2.status = "ok" := by
  intro kv hkv
  simp only [fetchFresh] at hkv
  split at hkv
  · next hok =>
    unfold cacheSet cachePop at hkv
    rcases List.mem_append.mp hkv with hleft | hright
    · exact h kv (List.mem_of_mem_filter hleft)
    · rcases List.mem_singleton.mp hright with rfl
      exact hok
  · exact h kv hkv

/-- C2: `load_cache` keeps only entries with status `ok`, and
`fetch_segment` preserves the invariant that every cache entry has status
`ok` — it removes non-`ok` entries it finds and inserts a result only when
that result's status is `ok`, so no `empty` or `error` result is ever in
the map handed to `save_cache`. -/
theorem C2_cache_entries_all_ok :
    (∀ raw : Cache, ∀ kv ∈ load_cache raw, kv.2.status = "ok") ∧
    (∀ (cache : Cache) (key : String) (call : ProviderCall) (mf : Nat),
      (∀ kv ∈ cache, kv.2.status = "ok") →
      ∀ kv ∈ (fetch_segment cache key call mf).2, kv.2.status = "ok") := by
  constructor
  · intro raw kv hkv
    have := List.of_mem_filter hkv
    exact of_decide_eq_true this
  · intro cache key call mf h kv hkv
    unfold fetch_segment at hkv
    split at hkv
    · next cached hc =>
      split at hkv
      · exact h kv hkv
      · refine fetchFresh_cache_all_ok _ key call mf ?_ kv hkv
        intro kv2 hkv2
        exact h kv2 (List.mem_of_mem_filter hkv2)
    · exact fetchFresh_cache_all_ok cache key call mf h kv hkv

/-- C2 witness: a fresh `ok` fetch on an empty cache yields a cache whose
single entry has status `ok`. -/
theorem C2_cache_entries_all_ok_witness :
    ((("k" : String), ({ status := "ok" } : FetchData)) : String × FetchData).2.status = "ok" :=
  C2_cache_entries_all_ok.2 [] ("k") (.ok ("") []) 0 (by simp) _ (by decide)

/-! ## C10: the clean-flights keep/reject accounting -/

theorem clean_rows_kept (rows : List RawRow) (st : CleanState) :
    (rows.foldl clean_step st).kept =
      st.kept ++ rows.filter (fun r => valid_price r && valid_duration r) := by
  induction rows generalizing st with
  | nil => simp
  | cons r rest ih =>
    rw [List.foldl_cons, ih]
    cases hvp : valid_price r <;> cases hvd : valid_duration r <;>
      simp [clean_step, hvp, hvd, List.filter_cons]

theorem clean_rows_rejected (rows : List RawRow) (st : CleanState) :
    (rows.foldl clean_step st).rejected =
      st.rejected ++ (rows.filter (fun r => !(valid_price r && valid_duration r))).map
        (fun r => (r, reject_reason r)) := by
  induction rows generalizing st with
  | nil => simp
  | cons r rest ih =>
    rw [List.foldl_cons, ih]
    cases hvp : valid_price r <;> cases hvd : valid_duration r <;>
      simp [clean_step, hvp, hvd, List.filter_cons]

theorem clean_rows_kept_count (rows : List RawRow) (st : CleanState) :
    (rows.foldl clean_step st).kept_count =
      st.kept_count + (rows.filter (fun r => valid_price r && valid_duration r)).length := by
  induction rows generalizing st with
  | nil => simp
  | cons r rest ih =>
    rw [List.foldl_cons, ih]
    cases hvp : valid_price r <;> cases hvd : valid_duration r <;>
      simp [clean_step, hvp, hvd, List.filter_cons] <;> omega

theorem clean_rows_rejected_count (rows : List RawRow) (st : CleanState) :
    (rows.foldl clean_step st).rejected_count =
      st.rejected_count +
        (rows.filter (fun r => !(valid_price r && valid_duration r))).length := by
  induction rows generalizing st with
  | nil => simp
  | cons r rest ih =>
    rw [List.foldl_cons, ih]
    cases hvp : valid_price r <;> cases hvd : valid_duration r <;>
      simp [clean_step, hvp, hvd, List.filter_cons] <;> omega

/-- C10: a raw data row is copied to the cleaned output iff its price
parses to a strictly positive value and its duration parses to strictly
positive minutes; every other row is rejected and recorded with a
reject reason listing `invalid_price` and/or `invalid_duration`, and
`kept_count + rejected_count` equals the number of input data rows. -/
theorem C10_clean_filter (rows : List RawRow) :
    (clean_rows rows).kept_count + (clean_rows rows).rejected_count = rows.length ∧
    (clean_rows rows).kept = rows.filter (fun r => valid_price r && valid_duration r) ∧
    (clean_rows rows).rejected =
      (rows.filter (fun r => !(valid_price r && valid_duration r))).map
        (fun r => (r, reject_reason r)) ∧
    (clean_rows rows).kept_count = (clean_rows rows).kept.length ∧
    (clean_rows rows).rejected_count = (clean_rows rows).rejected.length ∧
    ∀ r : RawRow, reject_reason r =
      (if valid_price r then (if valid_duration r then "" else "invalid_duration")
       else (if valid_duration r then "invalid_price" else "invalid_price|invalid_duration")) := by
  have hkept := clean_rows_kept rows {}
  have hrej := clean_rows_rejected rows {}
  have hkc := clean_rows_kept_count rows {}
  have hrc := clean_rows_rejected_count rows {}
  have hsplit := List.length_eq_length_filter_add
    (l := rows) (fun r => valid_price r && valid_duration r)
  unfold clean_rows
  refine ⟨?_, ?_, ?_, ?_, ?_, ?_⟩
  · rw [hkc, hrc]
    simp only [Nat.zero_add]
    simpa using hsplit.symm
  · simpa using hkept
  · simpa using hrej
  · rw [hkc, hkept]
    simp
  · rw [hrc, hrej]
    simp
  · intro r
    cases hvp : valid_price r <;> cases hvd : valid_duration r <;>
      simp [reject_reason, hvp, hvd] <;> rfl

/-- C10 witness: one invalid row is fully accounted for. -/
theorem C10_clean_filter_witness :
    (clean_rows [{ itinerary_id := "it0001", price_value := some 10, duration_min := none }]).kept_count +
      (clean_rows [{ itinerary_id := "it0001", price_value := some 10, duration_min := none }]).rejected_count = 1 :=
  (C10_clean_filter [{ itinerary_id := "it0001", price_value := some 10, duration_min := none }]).1

/-! ## C9: the max_calls submission budget -/

theorem query_step_inv (mc : Int) (hmc : 0 < mc) (st : DispatchState)
    (pairs : List AirportPair)
    (h1 : st.calls_submitted ≤ mc) (h2 : totalSubmitted st = st.calls_submitted) :
    (query_step mc st pairs).calls_submitted ≤ mc ∧
      totalSubmitted (query_step mc st pairs) = (query_step mc st pairs).calls_submitted := by
  simp only [query_step]
  split
  · exact ⟨h1, h2⟩
  · rw [if_pos (by omega : mc ≠ 0)]
    split
    · exact ⟨h1, h2⟩
    · next hrem =>
      constructor
      · simp only []
        split
        · next hlen =>
          simp only [List.length_take]
          omega
        · next hlen =>
          omega
      · simp only [totalSubmitted, List.map_append, List.sum_append, List.map_cons,
          List.map_nil, List.sum_cons, List.sum_nil]
        simp [totalSubmitted] at h2
        omega

theorem queries_foldl_inv (mc : Int) (hmc : 0 < mc)
    (queries : List (List AirportPair)) (st : DispatchState)
    (h1 : st.calls_submitted ≤ mc) (h2 : totalSubmitted st = st.calls_submitted) :
    (queries.foldl (query_step mc) st).calls_submitted ≤ mc ∧
      totalSubmitted (queries.foldl (query_step mc) st) =
        (queries.foldl (query_step mc) st).calls_submitted := by
  induction queries generalizing st with
  | nil => exact ⟨h1, h2⟩
  | cons q rest ih =>
    rw [List.foldl_cons]
    obtain ⟨g1, g2⟩ := query_step_inv mc hmc st q h1 h2
    exact ih (query_step mc st q) g1 g2

theorem schedule_step_inv (mc : Int) (hmc : 0 < mc) (st : DispatchState)
    (queries : List (List AirportPair))
    (h1 : st.calls_submitted ≤ mc) (h2 : totalSubmitted st = st.calls_submitted) :
    (schedule_step mc st queries).calls_submitted ≤ mc ∧
      totalSubmitted (schedule_step mc st queries) =
        (schedule_step mc st queries).calls_submitted := by
  unfold schedule_step
  split
  · exact ⟨h1, h2⟩
  · exact queries_foldl_inv mc hmc queries st h1 h2

/-- C9: with a positive `max_calls` budget, the dispatch loop submits at
most `max_calls` fetch tasks over the whole run — each query's pair list
is truncated to the remaining budget and no submissions happen after the
budget is exhausted; the count of submitted tasks equals the
`calls_submitted` counter. -/
theorem C9_max_calls_budget (mc : Int) (hmc : 0 < mc)
    (schedules : List (List (List AirportPair))) :
    (run_dispatch mc schedules).calls_submitted ≤ mc ∧
      totalSubmitted (run_dispatch mc schedules) =
        (run_dispatch mc schedules).calls_submitted := by
  unfold run_dispatch
  have main : ∀ (scheds : List (List (List AirportPair))) (st : DispatchState),
      st.calls_submitted ≤ mc → totalSubmitted st = st.calls_submitted →
      (scheds.foldl (schedule_step mc) st).calls_submitted ≤ mc ∧
        totalSubmitted (scheds.foldl (schedule_step mc) st) =
          (scheds.foldl (schedule_step mc) st).calls_submitted := by
    intro scheds
    induction scheds with
    | nil => exact fun st h1 h2 => ⟨h1, h2⟩
    | cons s rest ih =>
      intro st h1 h2
      rw [List.foldl_cons]
      obtain ⟨g1, g2⟩ := schedule_step_inv mc hmc st s h1 h2
      exact ih (schedule_step mc st s) g1 g2
  refine main schedules {} (by simp only []; omega) (by simp [totalSubmitted])

/-- C9 witness: a budget of 1 call with a single query offering two airport
pairs submits exactly one task. -/
theorem C9_max_calls_budget_witness :
    (run_dispatch 1 [[[(("CDG" : String), ("JFK" : String)), (("ORY" : String), ("JFK" : String))]]]).calls_submitted = 1 ∧
    (run_dispatch 1 [[[(("CDG" : String), ("JFK" : String)), (("ORY" : String), ("JFK" : String))]]]).calls_submitted ≤ 1 :=
  ⟨by decide, (C9_max_calls_budget 1 (by decide) _).1⟩

/-! ## C8: the fallback sweep condition -/

/-- C8 counterexample: a primary sweep whose clean summary holds exactly
one row with a null total price.  The claimed trigger holds (zero priced
rows, a distinct fallback mode is configured, the planner succeeded), yet
no fallback sweep runs, because the source tests `not rows` — summary
emptiness — and an unpriced itinerary still contributes a summary row. -/
theorem C8_counterexample :
    pricedRowCount (env0.rowsOf ("common")) = 0 ∧
    env0.plannerOk ("common") = true ∧
    (("common" : String)) ≠ ("local") ∧
    (run_sweep env0 ("common") (some ("local"))).1 = [("common")] ∧
    (("common" : String) :: []) ≠ [("common"), ("local")] := by
  decide

/-- C8 (amended): given a successful primary planner run, the fallback
sweep runs exactly once iff the rebuilt clean summary contains no rows at
all and the configured alternate mode differs from the primary; when the
summary is non-empty, or no alternate mode is configured, no fallback
sweep runs, and never more than one fallback sweep is attempted. -/
theorem C8_fallback_on_empty_summary (env : SweepEnv) (f fb : String)
    (hok : env.plannerOk f = true) :
    ((run_sweep env f (some fb)).1 = [f, fb] ↔ env.rowsOf f = [] ∧ fb ≠ f) ∧
    (env.rowsOf f ≠ [] → (run_sweep env f (some fb)).1 = [f]) ∧
    (run_sweep env f none).1 = [f] ∧
    (run_sweep env f (some fb)).1.length ≤ 2 := by
  by_cases hrows : env.rowsOf f = []
  · by_cases hfb : fb = f
    · subst hfb
      simp [run_sweep, hok, hrows]
    · by_cases hpfb : env.plannerOk fb = false
      · simp [run_sweep, hok, hrows, hfb, hpfb]
      · simp [run_sweep, hok, hrows, hfb, hpfb]
  · simp [run_sweep, hok, hrows]

/-- C8 witness: in the counterexample environment the non-empty primary
summary suppresses the fallback. -/
theorem C8_fallback_on_empty_summary_witness :
    (run_sweep env0 ("common") (some ("local"))).1 = [("common")] :=
  (C8_fallback_on_empty_summary env0 ("common") ("local") (by decide)).2.1 (by decide)

/-! ## C7: the 2 x 3 schedule expansion -/

/-- C7: for a three-node itinerary with one intermediate stop whose
stay-night spec is min 3, max 5, step 1, two candidate departure dates,
no return-date filter, no trip-nights range and no combination cap,
`iter_schedule_combos` yields exactly the 2 x 3 = 6 schedules of the
Cartesian product, in (departure date, stay-nights) order, with the
segment dates formed by cumulative stay addition. -/
theorem C7_six_schedules (d1 d2 : Int) :
    iter_schedule_combos itin7 [d1, d2] stayMap7 none {} =
      .ok [ { itinerary := itin7, segment_dates := [d1, d1 + 3], stay_nights := [3] }
          , { itinerary := itin7, segment_dates := [d1, d1 + 4], stay_nights := [4] }
          , { itinerary := itin7, segment_dates := [d1, d1 + 5], stay_nights := [5] }
          , { itinerary := itin7, segment_dates := [d2, d2 + 3], stay_nights := [3] }
          , { itinerary := itin7, segment_dates := [d2, d2 + 4], stay_nights := [4] }
          , { itinerary := itin7, segment_dates := [d2, d2 + 5], stay_nights := [5] } ] ∧
    expand_stay_nights { min := some 3, max := some 5, step := some 1 } = .ok [3, 4, 5] ∧
    listProd [[3, 4, 5]] = [[3], [4], [5]] := by
  refine ⟨rfl, rfl, rfl⟩

/-- C7 witness: the six schedules at concrete departure dates 0 and 7. -/
theorem C7_six_schedules_witness :
    iter_schedule_combos itin7 [0, 7] stayMap7 none {} =
      .ok [ { itinerary := itin7, segment_dates := [0, 3], stay_nights := [3] }
          , { itinerary := itin7, segment_dates := [0, 4], stay_nights := [4] }
          , { itinerary := itin7, segment_dates := [0, 5], stay_nights := [5] }
          , { itinerary := itin7, segment_dates := [7, 10], stay_nights := [3] }
          , { itinerary := itin7, segment_dates := [7, 11], stay_nights := [4] }
          , { itinerary := itin7, segment_dates := [7, 12], stay_nights := [5] } ] :=
  (C7_six_schedules 0 7).1

/-! ## C6: chasles-nested pairing on A-B-C-B-A -/

/-- C6: on the itinerary A-B-C-B-A (with A distinct from C so the first
two legs do not pair), the chasles-nested strategy emits exactly two
round-trip requests before the final sort: the inner pair B-C with
segment span 2, then the outer pair A-B with segment span 4, by the LIFO
rule with span `current.index - top.index + 1`. -/
theorem C6_chasles_nested (A B C : NodeSpec) (d0 d1 d2 d3 : Int) (st : List Int)
    (hAC : A ≠ C) :
    chasles_requests (build_segments
      { nodes := [A, B, C, B, A], label := "" }
      { itinerary := { nodes := [A, B, C, B, A], label := "" }
      , segment_dates := [d0, d1, d2, d3], stay_nights := st }) =
    [ { trip_type := "round-trip", from_node := B, to_node := C, depart_date := d1
      , return_date := some d2, stay_nights := some (d2 - d1)
      , segment_index := 1, segment_span := 2 }
    , { trip_type := "round-trip", from_node := A, to_node := B, depart_date := d0
      , return_date := some d3, stay_nights := some (d3 - d0)
      , segment_index := 0, segment_span := 4 } ] := by
  have hseg : build_segments
      { nodes := [A, B, C, B, A], label := "" }
      { itinerary := { nodes := [A, B, C, B, A], label := "" }
      , segment_dates := [d0, d1, d2, d3], stay_nights := st } =
      [ { index := 0, from_node := A, to_node := B, depart_date := d0, stay_nights := st.get? 0 }
      , { index := 1, from_node := B, to_node := C, depart_date := d1, stay_nights := st.get? 1 }
      , { index := 2, from_node := C, to_node := B, depart_date := d2, stay_nights := st.get? 2 }
      , { index := 3, from_node := B, to_node := A, depart_date := d3, stay_nights := st.get? 3 } ] := rfl
  rw [hseg]
  simp [chasles_requests, chasles_loop, hAC]

/-- C6 witness: the pairing at concrete distinct nodes and dates. -/
theorem C6_chasles_nested_witness :
    chasles_requests (build_segments
      { nodes := [{ group := "A" }, { group := "B" }, { group := "C" }
                 , { group := "B" }, { group := "A" }], label := "" }
      { itinerary := { nodes := [{ group := "A" }, { group := "B" }, { group := "C" }
                               , { group := "B" }, { group := "A" }], label := "" }
      , segment_dates := [10, 12, 15, 17], stay_nights := [2, 3, 2] }) =
    [ { trip_type := "round-trip", from_node := { group := "B" }, to_node := { group := "C" }
      , depart_date := 12, return_date := some 15, stay_nights := some 3
      , segment_index := 1, segment_span := 2 }
    , { trip_type := "round-trip", from_node := { group := "A" }, to_node := { group := "B" }
      , depart_date := 10, return_date := some 17, stay_nights := some 7
      , segment_index := 0, segment_span := 4 } ] := by
  have h := C6_chasles_nested { group := "A" } { group := "B" } { group := "C" }
    10 12 15 17 [2, 3, 2] (by decide)
  simpa using h

/-! ## C4: the summary sort order -/

theorem tupleLe_trans (a b c : Int × Rat)
    (h1 : tupleLe a b = true) (h2 : tupleLe b c = true) : tupleLe a c = true := by
  simp only [tupleLe, Bool.or_eq_true, Bool.and_eq_true, decide_eq_true_eq] at h1 h2 ⊢
  rcases h1 with h1 | ⟨h1e, h1r⟩ <;> rcases h2 with h2 | ⟨h2e, h2r⟩
  · exact Or.inl (by omega)
  · exact Or.inl (by omega)
  · exact Or.inl (by omega)
  · exact Or.inr ⟨by omega, le_trans h1r h2r⟩

theorem tupleLe_total (a b : Int × Rat) : tupleLe a b || tupleLe b a := by
  simp only [tupleLe, Bool.or_eq_true, Bool.and_eq_true, decide_eq_true_eq]
  rcases lt_trichotomy a.1 b.1 with h | h | h
  · exact Or.inl (Or.inl h)
  · rcases le_total a.2 b.2 with hr | hr
    · exact Or.inl (Or.inr ⟨h, hr⟩)
    · exact Or.inr (Or.inr ⟨h.symm, hr⟩)
  · exact Or.inr (Or.inl h)

/-- C4 counterexample: `sort_summary` puts the null-score row first, not
last, and leaves two equal-score rows in input order even though the later
one has the lower price — the price/duration tiebreak of the claim is not
applied in the summary sort. -/
theorem C4_counterexample :
    sort_summary [rowA, rowB, rowC] = [rowC, rowA, rowB] ∧
    rowC.score = none ∧
    rowA.score = some 50 ∧ rowB.score = some 50 ∧
    rowA.min_total_price = some 100 ∧ rowB.min_total_price = some 10 := by
  decide

/-- C4 (amended): both summary sorts order the rows by `score_key`
descending under Python tuple comparison with a stable sort: the output is
a permutation of the input in which every null-score row precedes every
scored row, scored rows appear in descending score order, and no price or
duration tiebreak is applied (ties keep their input order; the
lower-price-then-lower-duration tiebreak exists only in the separate
Top_Score ranking). -/
theorem C4_sort_order (rows : List SummaryRow) :
    (sort_summary rows).Perm rows ∧
    (sort_summary rows).Pairwise summaryLe ∧
    (sort_summary rows).Pairwise (fun a b => b.score = none → a.score = none) ∧
    (sort_summary rows).Pairwise
      (fun a b => ∀ x y, a.score = some x → b.score = some y → y ≤ x) := by
  haveI htrans : IsTrans SummaryRow summaryLe :=
    ⟨fun a b c hab hbc => tupleLe_trans (score_key c) (score_key b) (score_key a) hbc hab⟩
  haveI htot : IsTotal SummaryRow summaryLe :=
    ⟨fun a b => by
      have h := tupleLe_total (score_key b) (score_key a)
      rcases Bool.or_eq_true_iff.mp h with h1 | h1
      · exact Or.inl h1
      · exact Or.inr h1⟩
  have hperm := List.perm_insertionSort summaryLe rows
  have hsort : (sort_summary rows).Pairwise summaryLe :=
    List.sorted_insertionSort summaryLe rows
  refine ⟨hperm, hsort, ?_, ?_⟩
  · refine hsort.imp ?_
    intro a b hab hbnone
    rcases ha : a.score with _ | x
    · rfl
    · exfalso
      simp only [summaryLe, tupleLe, score_key, ha, hbnone, Bool.or_eq_true,
        Bool.and_eq_true, decide_eq_true_eq] at hab
      omega
  · refine hsort.imp ?_
    intro a b hab x y hax hby
    simp only [summaryLe, tupleLe, score_key, hax, hby, Bool.or_eq_true,
      Bool.and_eq_true, decide_eq_true_eq] at hab
    rcases hab with h | ⟨_, h⟩
    · omega
    · exact h

/-- C4 witness: the sorted list is a permutation of the input rows. -/
theorem C4_sort_order_witness :
    (sort_summary [rowA, rowB, rowC]).Perm [rowA, rowB, rowC] :=
  (C4_sort_order [rowA, rowB, rowC]).1

/-! ## C3: all-or-nothing itinerary totals -/

theorem rowAcc_priced (best : Nat → Option BestEntry) (l : List Nat) (acc : RowAcc) :
    (l.foldl (rowAccStep best) acc).priced =
      acc.priced + l.countP (fun q => (best q).isSome) := by
  induction l generalizing acc with
  | nil => simp
  | cons q rest ih =>
    rw [List.foldl_cons, ih]
    cases hq : best q <;> simp [rowAccStep, hq, List.countP_cons] <;> omega

theorem countP_missing (best : Nat → Option BestEntry) (n q : Nat) (hq : q < n)
    (hmiss : best q = none) :
    (List.range n).countP (fun q2 => (best q2).isSome) ≠ n := by
  intro heq
  have h2 : (List.range n).countP (fun q2 => (best q2).isSome) = (List.range n).length := by
    rw [List.length_range]
    exact heq
  have hall := List.countP_eq_length.mp h2
  have hq2 := hall q (List.mem_range.mpr hq)
  rw [hmiss] at hq2
  simp at hq2

theorem build_summary_row_missing (itinerary_id : String) (meta : SummaryMeta)
    (best : Nat → Option BestEntry) (q : Nat) (hq : q < meta.queries)
    (hmiss : best q = none) :
    (build_summary_row itinerary_id meta best).min_total_price = none ∧
    (build_summary_row itinerary_id meta best).total_duration_min = none ∧
    (build_summary_row itinerary_id meta best).total_stops = none ∧
    (build_summary_row itinerary_id meta best).night_segments = none ∧
    (build_summary_row itinerary_id meta best).score = none ∧
    (build_summary_row itinerary_id meta best).itinerary_id = itinerary_id ∧
    eligibleRow (build_summary_row itinerary_id meta best) = false := by
  have hp : ((List.range meta.queries).foldl (rowAccStep best) {}).priced ≠ meta.queries := by
    rw [rowAcc_priced]
    simpa using countP_missing best meta.queries q hq hmiss
  simp [build_summary_row, eligibleRow, hp]

theorem build_summary_row_clean_missing (itinerary_id : String) (mq : Nat)
    (best : Nat → Option BestEntry) (q : Nat) (hq : q ≤ mq)
    (hmiss : best q = none) :
    (build_summary_row_clean itinerary_id (some mq) best).min_total_price = none ∧
    (build_summary_row_clean itinerary_id (some mq) best).total_duration_min = none ∧
    (build_summary_row_clean itinerary_id (some mq) best).total_stops = none ∧
    (build_summary_row_clean itinerary_id (some mq) best).night_segments = none ∧
    (build_summary_row_clean itinerary_id (some mq) best).score = none ∧
    eligibleRow (build_summary_row_clean itinerary_id (some mq) best) = false := by
  have hp : ((List.range (mq + 1)).foldl (rowAccStep best) {}).priced ≠ mq + 1 := by
    rw [rowAcc_priced]
    simpa using countP_missing best (mq + 1) q (by omega) hmiss
  simp [build_summary_row_clean, eligibleRow, hp]

theorem apply_scores_get?_ineligible (w : Weights) (rows : List SummaryRow) (i : Nat)
    (r : SummaryRow) (hr : rows.get? i = some r) (hne : eligibleRow r = false) :
    (apply_scores w rows).get? i = some r := by
  simp only [apply_scores]
  split
  · exact hr
  · rw [List.get?_map, hr]
    simp [hne]

/-- C3: whenever some planned query of an itinerary produced no priced
candidate, the itinerary's summary row carries null totals (price,
duration, stops, night count) and a null score, is excluded from the
scoring eligibility set, but is still present in the summary output; the
same all-or-nothing rule holds for the rebuilt clean summary rows. -/
theorem C3_totals_all_or_nothing
    (metas : List (String × SummaryMeta)) (best : String → Nat → Option BestEntry)
    (w : Weights) (i : Nat) (idm : String × SummaryMeta)
    (hi : metas.get? i = some idm) (q : Nat) (hq : q < idm.2.queries)
    (hmiss : best idm.1 q = none) :
    (∃ r, (build_summary_rows metas best w).get? i = some r ∧
      r.itinerary_id = idm.1 ∧
      r.min_total_price = none ∧ r.total_duration_min = none ∧
      r.total_stops = none ∧ r.night_segments = none ∧ r.score = none ∧
      eligibleRow r = false) ∧
    (∀ (id2 : String) (mq : Nat) (best2 : Nat → Option BestEntry) (q2 : Nat),
      q2 ≤ mq → best2 q2 = none →
      (build_summary_row_clean id2 (some mq) best2).min_total_price = none ∧
      (build_summary_row_clean id2 (some mq) best2).total_duration_min = none ∧
      (build_summary_row_clean id2 (some mq) best2).total_stops = none ∧
      (build_summary_row_clean id2 (some mq) best2).night_segments = none ∧
      (build_summary_row_clean id2 (some mq) best2).score = none ∧
      eligibleRow (build_summary_row_clean id2 (some mq) best2) = false) := by
  constructor
  · obtain ⟨h1, h2, h3, h4, h5, h6, h7⟩ :=
      build_summary_row_missing idm.1 idm.2 (best idm.1) q hq hmiss
    refine ⟨build_summary_row idm.1 idm.2 (best idm.1), ?_, h6, h1, h2, h3, h4, h5, h7⟩
    unfold build_summary_rows
    refine apply_scores_get?_ineligible w _ i _ ?_ h7
    rw [List.get?_map, hi]
    rfl
  · intro id2 mq best2 q2 hq2 hm2
    exact build_summary_row_clean_missing id2 mq best2 q2 hq2 hm2

/-- C3 witness: a two-query itinerary where no query ever priced keeps a
summary row with null totals and a null score. -/
theorem C3_totals_all_or_nothing_witness :
    ((build_summary_rows
        [(("it0001" : String), { route := "", trip_nights := 0, segments := 2, queries := 2 })]
        (fun _ _ => none) { price := 3 / 5, duration := 1 / 5, stops := 3 / 20, night := 1 / 20 }).get? 0).map
      SummaryRow.score = some none := by
  obtain ⟨⟨r, hr, hid, h1, h2, h3, h4, h5, h6⟩, hclean⟩ :=
    C3_totals_all_or_nothing
      [(("it0001" : String), { route := "", trip_nights := 0, segments := 2, queries := 2 })]
      (fun _ _ => none) { price := 3 / 5, duration := 1 / 5, stops := 3 / 20, night := 1 / 20 }
      0 (("it0001"), { route := "", trip_nights := 0, segments := 2, queries := 2 })
      rfl 0 (by decide) rfl
  rw [hr]
  simp [h5]

/-! ## C1: in-flight coalescing of concurrent identical fetches -/

namespace Inflight

@[simp] theorem setThread_nthreads (s : Sys) (t : Nat) (th : Thread) :
    (setThread s t th).nthreads = s.nthreads := rfl

@[simp] theorem setThread_cache (s : Sys) (t : Nat) (th : Thread) :
    (setThread s t th).cache = s.cache := rfl

@[simp] theorem setThread_inflightKey (s : Sys) (t : Nat) (th : Thread) :
    (setThread s t th).inflightKey = s.inflightKey := rfl

@[simp] theorem setThread_entries (s : Sys) (t : Nat) (th : Thread) :
    (setThread s t th).entries = s.entries := rfl

@[simp] theorem setThread_nentries (s : Sys) (t : Nat) (th : Thread) :
    (setThread s t th).nentries = s.nentries := rfl

@[simp] theorem setThread_extCalls (s : Sys) (t : Nat) (th : Thread) :
    (setThread s t th).extCalls = s.extCalls := rfl

@[simp] theorem setThread_threads (s : Sys) (t : Nat) (th : Thread) (t' : Nat) :
    (setThread s t th).threads t' = if t' = t then th else s.threads t' := by
  simp [setThread, Function.update_apply]

theorem coalesced_step (pd : FetchData) (s : Sys) (o eid t : Nat)
    (h : Coalesced pd s o eid) : Coalesced pd (step pd s t) o eid := by
  obtain ⟨ho, howner, hentry, hpc, hcalls, hes, hkey, hres, hothers⟩ := h
  by_cases ht : t < s.nthreads
  case neg =>
    have hstep : step pd s t = s := by simp [step, ht]
    rw [hstep]
    exact ⟨ho, howner, hentry, hpc, hcalls, hes, hkey, hres, hothers⟩
  case pos =>
  by_cases hto : t = o
  · subst hto
    rcases hpc with h1 | h1 | h1 | h1 | h1
    · -- the owner performs the external call
      have hstep : step pd s t =
          ⟨s.cache, s.inflightKey, s.entries, s.nentries,
            Function.update s.threads t
              ⟨.insertCache, (s.threads t).entry, (s.threads t).owner,
                (s.threads t).missedCache, (s.threads t).result⟩,
            s.nthreads, s.extCalls + 1⟩ := by
        simp [step, ht, h1, setThread]
      rw [hstep]
      refine ⟨ho, ?_, ?_, ?_, ?_, ?_, ?_, ?_, ?_⟩
      · simp [Function.update_same, howner]
      · simp [Function.update_same, hentry]
      · simp [Function.update_same, ownerPC]
      · simp [Function.update_same, hcalls, h1]
      · simp [Function.update_same, hes, h1]
      · simp [Function.update_same, hkey, h1]
      · simp [Function.update_same, hres, h1]
      · intro t' ht' hne
        simpa [Function.update_noteq hne] using hothers t' ht' hne
    · -- the owner inserts an ok result into the cache
      have hstep : step pd s t =
          ⟨(if pd.status = "ok" then some pd else s.cache), s.inflightKey, s.entries,
            s.nentries,
            Function.update s.threads t
              ⟨.signalWaiters, (s.threads t).entry, (s.threads t).owner,
                (s.threads t).missedCache, (s.threads t).result⟩,
            s.nthreads, s.extCalls⟩ := by
        by_cases hpd : pd.status = "ok" <;> simp [step, ht, h1, hpd, setThread]
      rw [hstep]
      refine ⟨ho, ?_, ?_, ?_, ?_, ?_, ?_, ?_, ?_⟩
      · simp [Function.update_same, howner]
      · simp [Function.update_same, hentry]
      · simp [Function.update_same, ownerPC]
      · simp [Function.update_same, hcalls, h1]
      · simp [Function.update_same, hes, h1]
      · simp [Function.update_same, hkey, h1]
      · simp [Function.update_same, hres, h1]
      · intro t' ht' hne
        simpa [Function.update_noteq hne] using hothers t' ht' hne
    · -- the owner signals its waiters (response set, then event set)
      have hstep : step pd s t =
          ⟨s.cache, s.inflightKey,
            Function.update s.entries eid ⟨true, some pd⟩, s.nentries,
            Function.update s.threads t
              ⟨.popInflight, (s.threads t).entry, (s.threads t).owner,
                (s.threads t).missedCache, (s.threads t).result⟩,
            s.nthreads, s.extCalls⟩ := by
        simp [step, ht, h1, howner, hentry, setThread]
      rw [hstep]
      refine ⟨ho, ?_, ?_, ?_, ?_, ?_, ?_, ?_, ?_⟩
      · simp [Function.update_same, howner]
      · simp [Function.update_same, hentry]
      · simp [Function.update_same, ownerPC]
      · simp [Function.update_same, hcalls, h1]
      · simp [Function.update_same]
      · simp [Function.update_same, hkey, h1]
      · simp [Function.update_same, hres, h1]
      · intro t' ht' hne
        simpa [Function.update_noteq hne] using hothers t' ht' hne
    · -- the owner removes the in-flight marker and returns its fresh result
      have hstep : step pd s t =
          ⟨s.cache, none, s.entries, s.nentries,
            Function.update s.threads t
              ⟨.finished, (s.threads t).entry, (s.threads t).owner,
                (s.threads t).missedCache, some (ownerResult pd)⟩,
            s.nthreads, s.extCalls⟩ := by
        simp [step, ht, h1, howner, setThread, finishThread, ownerResult]
      rw [hstep]
      refine ⟨ho, ?_, ?_, ?_, ?_, ?_, ?_, ?_, ?_⟩
      · simp [Function.update_same, howner]
      · simp [Function.update_same, hentry]
      · simp [Function.update_same, ownerPC]
      · simp [Function.update_same, hcalls, h1]
      · simp [Function.update_same, hes, h1]
      · simp [Function.update_same]
      · simp [Function.update_same]
      · intro t' ht' hne
        simpa [Function.update_noteq hne] using hothers t' ht' hne
    · -- the owner is already finished: its step is a no-op
      have hstep : step pd s t = s := by simp [step, ht, h1]
      rw [hstep]
      exact ⟨ho, howner, hentry, Or.inr (Or.inr (Or.inr (Or.inr h1))), hcalls, hes, hkey,
        hres, hothers⟩
  · -- a non-owner thread steps
    have hot : o ≠ t := fun hoe => hto hoe.symm
    obtain ⟨hwowner, hwentry, hwdisj⟩ := hothers t ht hto
    rcases hwdisj with ⟨hwpc, hwres⟩ | ⟨hwpc, hwres⟩
    · -- the thread waits on the owner's entry
      by_cases hsig : (s.threads o).pc = .popInflight ∨ (s.threads o).pc = .finished
      · -- the event has been set: the waiter finishes with the tagged copy
        have he : s.entries eid = { event := true, response := some pd } := by
          rw [hes, if_pos hsig]
        have hstep : step pd s t =
            ⟨s.cache, s.inflightKey, s.entries, s.nentries,
              Function.update s.threads t
                ⟨.finished, (s.threads t).entry, (s.threads t).owner,
                  (s.threads t).missedCache, some (waiterResult pd)⟩,
              s.nthreads, s.extCalls⟩ := by
          simp [step, ht, hwpc, hwentry, he, setThread, finishThread, waiterResult]
        rw [hstep]
        refine ⟨ho, ?_, ?_, ?_, ?_, ?_, ?_, ?_, ?_⟩
        · simpa [Function.update_noteq hot] using howner
        · simpa [Function.update_noteq hot] using hentry
        · simpa [Function.update_noteq hot] using hpc
        · simpa [Function.update_noteq hot] using hcalls
        · simpa [Function.update_noteq hot] using hes
        · simpa [Function.update_noteq hot] using hkey
        · simpa [Function.update_noteq hot] using hres
        · intro t' ht' hne
          by_cases ht't : t' = t
          · subst ht't
            refine ⟨by simpa [Function.update_same] using hwowner,
              by simpa [Function.update_same] using hwentry, Or.inr ⟨?_, ?_⟩⟩
            · simp [Function.update_same]
            · simp [Function.update_same]
          · simpa [Function.update_noteq ht't] using hothers t' ht' hne
      · -- the event is still unset: the waiter blocks and the state is unchanged
        have he : s.entries eid = emptyEntry := by
          rw [hes, if_neg hsig]
        have hstep : step pd s t = s := by
          simp [step, ht, hwpc, hwentry, he, emptyEntry]
        rw [hstep]
        exact ⟨ho, howner, hentry, hpc, hcalls, hes, hkey, hres, hothers⟩
    · -- the thread already finished: its step is a no-op
      have hstep : step pd s t = s := by simp [step, ht, hwpc]
      rw [hstep]
      exact ⟨ho, howner, hentry, hpc, hcalls, hes, hkey, hres, hothers⟩

theorem run_coalesced (pd : FetchData) (s : Sys) (o eid : Nat) (sched : List Nat)
    (h : Coalesced pd s o eid) : Coalesced pd (run pd s sched) o eid := by
  induction sched generalizing s with
  | nil => exact h
  | cons t rest ih => exact ih (step pd s t) (coalesced_step pd s o eid t h)

end Inflight

/-- C1 counterexample: two overlapping `fetch_segment` calls for the same
key, both of which find the persisted cache unsatisfying (both cache checks
miss), can still issue two external provider calls: the second caller's
in-flight lookup happens after the first caller has removed its in-flight
marker, while its cache check happened before the first caller cached its
result.  Both finish with fresh (non-coalesced) results. -/
theorem C1_counterexample :
    (Inflight.run okPd (Inflight.initSys 2) [0, 0, 1, 0, 0, 0, 0, 1, 1, 1, 1, 1]).extCalls = 2 ∧
    (∀ t, t < 2 →
      ((Inflight.run okPd (Inflight.initSys 2)
          [0, 0, 1, 0, 0, 0, 0, 1, 1, 1, 1, 1]).threads t).pc = .finished ∧
      ((Inflight.run okPd (Inflight.initSys 2)
          [0, 0, 1, 0, 0, 0, 0, 1, 1, 1, 1, 1]).threads t).missedCache = true ∧
      ((Inflight.run okPd (Inflight.initSys 2)
          [0, 0, 1, 0, 0, 0, 0, 1, 1, 1, 1, 1]).threads t).result =
        some (Inflight.ownerResult okPd)) ∧
    okPd.status = "ok" ∧ (2 : Nat) ≠ 1 := by
  decide

/-- C1 (amended): from any coalesced configuration — one caller registered
as the in-flight owner of the key's entry and every other caller already
past its in-flight lookup, blocked on (or finished from) that same entry —
every continuation of the execution that runs all threads to completion
issues exactly one external provider call in total, the owner returns the
fresh result, and every other caller returns an equivalent copy of the
owner's result tagged `from_cache = true`, `cache_source = "inflight"`. -/
theorem C1_coalesced_single_call (pd : FetchData) (s : Inflight.Sys)
    (sched : List Nat) (o eid : Nat)
    (h : Inflight.Coalesced pd s o eid)
    (hdone : ∀ t, t < (Inflight.run pd s sched).nthreads →
      ((Inflight.run pd s sched).threads t).pc = .finished) :
    (Inflight.run pd s sched).extCalls = 1 ∧
    ((Inflight.run pd s sched).threads o).result = some (Inflight.ownerResult pd) ∧
    ∀ t, t < (Inflight.run pd s sched).nthreads → t ≠ o →
      ((Inflight.run pd s sched).threads t).result = some (Inflight.waiterResult pd) := by
  obtain ⟨ho, howner, hentry, hpc, hcalls, hes, hkey, hres, hothers⟩ :=
    Inflight.run_coalesced pd s o eid sched h
  have hopc := hdone o ho
  refine ⟨?_, ?_, ?_⟩
  · rw [hcalls, hopc]
    simp
  · rw [hres, hopc]
    simp
  · intro t htn htno
    rcases (hothers t htn htno).2.2 with ⟨hw, _⟩ | ⟨_, hwres⟩
    · have := hdone t htn
      rw [hw] at this
      exact absurd this (by simp)
    · exact hwres

/-- C1 witness: three threads in the coalesced configuration finish with
one external call, the owner's fresh result, and inflight-tagged copies. -/
theorem C1_coalesced_single_call_witness :
    (Inflight.run okPd coalescedMid [0, 0, 0, 0, 1, 2]).extCalls = 1 ∧
    ((Inflight.run okPd coalescedMid [0, 0, 0, 0, 1, 2]).threads 1).result =
      some (Inflight.waiterResult okPd) := by
  have h := C1_coalesced_single_call okPd coalescedMid [0, 0, 0, 0, 1, 2] 0 0
    ⟨by decide, by decide, by decide, by decide, by decide, by decide, by decide,
      by decide, by decide⟩
    (by decide)
  exact ⟨h.1, h.2.2 1 (by decide) (by decide)⟩

end TravelOpt
